import Mathlib

/-!
Shallow embedding of the rqt_plot sources (`rosplot.py`, `plot_widget.py`,
`data_plot/pyqtgraph_data_plot.py`) used to settle the claims about the
field-path resolver, the buffered per-topic sampler `ROSData`, the plot-field
enumeration `get_plot_fields`, and the panel bookkeeping of `PlotWidget`.

Strings are modelled as `List Char`; Python floats as `Rat` (the arithmetic the
claims mention is exact in this model); Python dictionaries as duplicate-free
lists of their keys (with values carried separately where a claim needs them).
-/

namespace RqtPlot

/-- Python `s.split(c)` semantics on character lists: splits at every
occurrence of `c`, keeping empty chunks (`''.split(c) == ['']`). -/
def splitOnChar (c : Char) : List Char → List (List Char)
  | [] => [[]]
  | a :: rest =>
    if a = c then [] :: splitOnChar c rest
    else
      match splitOnChar c rest with
      | [] => [[a]]
      | g :: gs => (a :: g) :: gs

/-- Python `rest[:rest.find(K)]` for `K = ']'`: when `']'` occurs, everything
before its first occurrence; when it does not, `find` returns `-1` and the
slice `rest[:-1]` drops the last character. -/
def sliceToBracket (r : List Char) : List Char :=
  if ']' ∈ r then r.takeWhile (fun a => a != ']') else r.dropLast

/-- Digit-string accumulator for the model of Python `int()`. -/
def parseDigits : List Char → Option Nat
  | [] => none
  | cs => go cs 0
where
  go : List Char → Nat → Option Nat
  | [], acc => some acc
  | c :: rest, acc =>
    if c.isDigit then go rest (acc * 10 + (c.toNat - 48)) else none

/-- Model of Python `int(s)` on the strings this program feeds it: an optional
sign followed by a non-empty run of decimal digits; anything else raises
`ValueError`, modelled as `none`. -/
def pyInt (s : List Char) : Option Int :=
  match s with
  | '-' :: rest => (parseDigits rest).map (fun n => -(n : Int))
  | '+' :: rest => (parseDigits rest).map (fun n => (n : Int))
  | _ => (parseDigits s).map (fun n => (n : Int))

/-- The kinds of `RosPlotException` (and the unresolved-topic error) that
`rosplot.py` constructs; the Python code stores exception objects whose
message strings differ, the model keeps the kind. -/
inductive RosPlotErr where
  | resolveErr   -- "Can not resolve topic type of %s"   (ROSData.__init__)
  | parseErr     -- "cannot parse field reference [%s]"  (generate_field_evals)
  | indexErr     -- "[%s] index error for: %s"           (ROSData._get_data)
  | typeErr      -- "[%s] value was not numeric: %s"     (ROSData._get_data)
  | invalidSpec  -- "Invalid topic spec [%s]: %s"        (ROSData._ros_cb)
  deriving DecidableEq, Repr

/-- Python exceptions that field evaluation can raise. -/
inductive PyErr where
  | attrErr   -- AttributeError
  | indexErr  -- IndexError
  | typeErr   -- TypeError
  deriving DecidableEq, Repr

/-- The closures produced by `_array_eval` / `_field_eval`, represented as
data: `arrayEval name k` is `fn(f) = getattr(f, name).__getitem__(k)` and
`fieldEval name` is `fn(f) = getattr(f, name)`. -/
inductive FieldEval where
  | arrayEval (field_name : List Char) (slot_num : Int)
  | fieldEval (field_name : List Char)
  deriving DecidableEq, Repr

/-- Model of a ROS message value as seen through `getattr`, indexing and
`float()`: numeric leaves, plain booleans, the `std_msgs/Bool` message (the
one message type `_get_data` special-cases), arrays, and composite messages
with named fields. -/
inductive Msg where
  | num (v : Rat)
  | boolV (b : Bool)
  | boolMsg (b : Bool)
  | arr (xs : List Msg)
  | comp (fields : List (List Char × Msg))
  deriving Repr

/-- `getattr(m, name)`: field lookup on a composite message (`std_msgs/Bool`
has the single field `data`); everything else raises `AttributeError`. -/
def pyGetattr (m : Msg) (name : List Char) : Except PyErr Msg :=
  match m with
  | .comp fields =>
    match fields.find? (fun p => p.1 == name) with
    | some p => .ok p.2
    | none => .error .attrErr
  | .boolMsg b =>
    if name = [ 'd', 'a', 't', 'a' ] then .ok (.boolV b) else .error .attrErr
  | _ => .error .attrErr

/-- `m.__getitem__(i)` with Python list-index semantics: negative indices
count from the end, out-of-range raises `IndexError`, subscripting a
non-sequence raises `TypeError`. -/
def pyGetitem (m : Msg) (i : Int) : Except PyErr Msg :=
  match m with
  | .arr xs =>
    let j : Int := if i < 0 then i + xs.length else i
    if j < 0 then .error .indexErr
    else
      match xs.get? j.toNat with
      | some v => .ok v
      | none => .error .indexErr
  | _ => .error .typeErr

/-- Python `float(v)` on model values: numbers and plain booleans convert,
sequences and message objects raise `TypeError`. -/
def pyFloat (m : Msg) : Except PyErr Rat :=
  match m with
  | .num v => .ok v
  | .boolV b => .ok (if b then 1 else 0)
  | _ => .error .typeErr

/-- Run one stored evaluator, exactly the closure bodies of `_array_eval`
(`getattr(f, field_name).__getitem__(slot_num)`) and `_field_eval`
(`getattr(f, field_name)`). -/
def applyEval (e : FieldEval) (m : Msg) : Except PyErr Msg :=
  match e with
  | .fieldEval name => pyGetattr m name
  | .arrayEval name i =>
    match pyGetattr m name with
    | .ok v => pyGetitem v i
    | .error err => .error err

/-- The loop `for f in self.field_evals: val = f(val)` of `_get_data`. -/
def applyEvals : List FieldEval → Msg → Except PyErr Msg
  | [], m => .ok m
  | e :: es, m =>
    match applyEval e m with
    | .ok v => applyEvals es v
    | .error err => .error err

/-- The component loop of `generate_field_evals`: a component containing `[`
is split at its first `[`, the text before the first `]` of the remainder is
fed to `int()` (failure raises `RosPlotException`), and a plain component
becomes a field access; evaluators are accumulated in component order. -/
def parseComps : List (List Char) → Except RosPlotErr (List FieldEval)
  | [] => .ok []
  | f :: rest =>
    if '[' ∈ f then
      match pyInt (sliceToBracket ((f.dropWhile (fun a => a != '[')).tail)) with
      | some n =>
        (parseComps rest).map
          (fun evs => FieldEval.arrayEval (f.takeWhile (fun a => a != '[')) n :: evs)
      | none => .error .parseErr
    else
      (parseComps rest).map (fun evs => FieldEval.fieldEval f :: evs)

/-- `generate_field_evals(fields)`: split the field string on `/`, skip empty
components, parse each component. -/
def generate_field_evals (fields : List Char) : Except RosPlotErr (List FieldEval) :=
  parseComps ((splitOnChar '/' fields).filter (fun f => f ≠ []))

/-- Outcome of `ROSData._get_data(msg)`: a float returned, or an
`IndexError`/`TypeError` caught inside `_get_data` (which records a
`RosPlotException` on `self.error` and falls through returning `None`), or an
`AttributeError` propagating out of `_get_data` (its `except` clauses do not
catch it). -/
inductive GetData where
  | ok (v : Rat)
  | errSet (e : RosPlotErr)
  | attrRaise
  deriving DecidableEq, Repr

/-- `ROSData._get_data(msg)`: with no stored evaluators, a `std_msgs/Bool`
message is unwrapped to its `data` field and the value is passed to
`float()`; otherwise the stored evaluators run left to right and the result
is passed to `float()`. `IndexError` and `TypeError` are caught and recorded,
`AttributeError` escapes. -/
def getDataVal (field_evals : List FieldEval) (msg : Msg) : GetData :=
  match field_evals with
  | [] =>
    let val := match msg with
      | .boolMsg b => Msg.boolV b
      | m => m
    match pyFloat val with
    | .ok v => .ok v
    | .error _ => .errSet .typeErr
  | _ =>
    match applyEvals field_evals msg with
    | .ok v =>
      match pyFloat v with
      | .ok x => .ok x
      | .error _ => .errSet .typeErr
    | .error .attrErr => .attrRaise
    | .error .indexErr => .errSet .indexErr
    | .error .typeErr => .errSet .typeErr

/-- How `_ros_cb`'s timestamp branch `hasattr(msg, 'header')` /
`msg.header.stamp.sec + msg.header.stamp.nanosec * 10**-9` plays out on a
message: no `header` attribute; a well-formed header carrying numeric
`stamp.sec` and `stamp.nanosec`; a header whose `stamp`/`sec`/`nanosec`
access raises `AttributeError` (caught by `_ros_cb`); or numeric fields that
are not numbers, making the arithmetic raise `TypeError` (uncaught). -/
inductive HeaderStatus where
  | absent
  | ok (sec nanosec : Rat)
  | attrBroken
  | typeBroken
  deriving DecidableEq, Repr

/-- Classify `msg`'s header for the timestamp branch of `_ros_cb`. -/
def headerStatus (msg : Msg) : HeaderStatus :=
  match pyGetattr msg [ 'h', 'e', 'a', 'd', 'e', 'r' ] with
  | .error _ => .absent
  | .ok h =>
    match pyGetattr h [ 's', 't', 'a', 'm', 'p' ] with
    | .error _ => .attrBroken
    | .ok st =>
      match pyGetattr st [ 's', 'e', 'c' ], pyGetattr st [ 'n', 'a', 'n', 'o', 's', 'e', 'c' ] with
      | .ok (.num a), .ok (.num b) => .ok a b
      | .error _, _ => .attrBroken
      | _, .error _ => .attrBroken
      | _, _ => .typeBroken

/-- The mutable state of one `ROSData` sample stream. The lock serialises
`_ros_cb` against `next`, so the state machine below applies whole operations
atomically; `buff_y` holds `Option Rat` because `_get_data` returns `None`
after a caught `IndexError`/`TypeError`. -/
structure ROSData where
  name : List Char
  start_time : Rat
  error : Option RosPlotErr
  buff_x : List Rat
  buff_y : List (Option Rat)
  field_evals : List FieldEval
  deriving Repr

/-- The state `ROSData.__init__` leaves behind for a resolvable topic, with
`field_evals` already computed (the constructor stores
`generate_field_evals(fields)`; both buffers start empty, no error). -/
def ROSData.initState (name : List Char) (start_time : Rat)
    (evals : List FieldEval) : ROSData :=
  { name := name, start_time := start_time, error := none,
    buff_x := [], buff_y := [], field_evals := evals }

/-- `ROSData.__init__(node, topic, start_time)`: when the topic type does not
resolve, `error` is set and no subscription is made; when it resolves with
field string `fields`, `field_evals := generate_field_evals(fields)` (whose
`RosPlotException` would propagate out of the constructor, modelled as the
`Except.error` case). -/
def ROSData.init (resolvedFields : Option (List Char)) (name : List Char)
    (start_time : Rat) : Except RosPlotErr ROSData :=
  match resolvedFields with
  | none =>
    .ok { name := name, start_time := start_time, error := some .resolveErr,
          buff_x := [], buff_y := [], field_evals := [] }
  | some fields =>
    (generate_field_evals fields).map (ROSData.initState name start_time)

/-- `ROSData._ros_cb(msg)` at wall-clock time `now`:
`buff_y.append(_get_data(msg))`, then a timestamp is appended to `buff_x` —
header time minus `start_time` if the message has a (well-formed) header,
`now - start_time` otherwise. An `AttributeError` from `_get_data` skips both
appends and records an "Invalid topic spec" error; an `AttributeError` from
the header chain leaves `buff_x` unappended and records the same error
(overwriting any error `_get_data` just recorded); an uncaught `TypeError`
from the header arithmetic leaves `buff_x` unappended and `error` untouched. -/
def ROSData.ros_cb (s : ROSData) (msg : Msg) (now : Rat) : ROSData :=
  match getDataVal s.field_evals msg with
  | .attrRaise => { s with error := some .invalidSpec }
  | r =>
    let y : Option Rat := match r with | .ok v => some v | _ => none
    let e1 : Option RosPlotErr := match r with | .errSet e => some e | _ => s.error
    match headerStatus msg with
    | .absent =>
      { s with buff_y := s.buff_y ++ [y],
               buff_x := s.buff_x ++ [now - s.start_time], error := e1 }
    | .ok sec nanosec =>
      { s with buff_y := s.buff_y ++ [y],
               buff_x := s.buff_x ++ [sec + nanosec * (1 / 1000000000) - s.start_time],
               error := e1 }
    | .attrBroken =>
      { s with buff_y := s.buff_y ++ [y], error := some .invalidSpec }
    | .typeBroken =>
      { s with buff_y := s.buff_y ++ [y], error := e1 }

/-- `ROSData.next()`: raise the stored error if one is set (before touching
the buffers), else return both buffers and reset them to empty. The second
component is the state after the call. -/
def ROSData.next (s : ROSData) :
    Except RosPlotErr (List Rat × List (Option Rat)) × ROSData :=
  match s.error with
  | some e => (.error e, s)
  | none => (.ok (s.buff_x, s.buff_y), { s with buff_x := [], buff_y := [] })

/-- One interleaving step on a sample stream: a subscriber callback or a
consumer drain. -/
inductive RDOp where
  | cb (msg : Msg) (now : Rat)
  | drain

/-- Apply one interleaving step. -/
def RDOp.apply (s : ROSData) : RDOp → ROSData
  | .cb msg now => s.ros_cb msg now
  | .drain => (s.next).2

/-- Run a sequence of callback/drain steps. -/
def ROSData.runOps (s : ROSData) (ops : List RDOp) : ROSData :=
  ops.foldl RDOp.apply s

/-! ## `get_plot_fields` (plot_widget.py)

The schema walk uses the host reflection helpers
(`get_fields_and_field_types`, `MessageFieldTypeInfo`,
`separate_field_from_array_information`, `get_type_class`); the model
represents a resolved slot type directly as its Python class together with
the `(is_array, array_size)` information `_parse_type` extracts, and a path
component as its field name together with the optional explicit index the
separator helper strips off. -/

/-- The Python class a slot type maps to under `get_type_class`: `int`,
`float`, `bool`, `str` (a primitive that is not plottable), or a message
class carrying its `get_fields_and_field_types()` table, each field giving
`(base class, is_array, array_size)` as produced by `_parse_type`. -/
inductive PyClass where
  | intC
  | floatC
  | boolC
  | strC
  | msgC (ffs : List (List Char × PyClass × Bool × Option Nat))

/-- Whether the class is in `(int, float, bool)` (line 135). -/
def PyClass.isNumeric : PyClass → Bool
  | .intC | .floatC | .boolC => true
  | _ => false

/-- Whether the class is in `(int, float)` (line 161, enumeration branch). -/
def PyClass.isIntOrFloat : PyClass → Bool
  | .intC | .floatC => true
  | _ => false

/-- The field loop of `get_plot_fields` (lines 110-132): each component is
looked up in the current message class's field table; a missing field or a
non-message current class returns an error message (modelled `none`);
`is_array`, `array_size` come from the last component's slot type and
`field_index` from the last component's bracket index. -/
def walkFields : PyClass → Bool → Option Nat → Option Nat →
    List (List Char × Option Nat) → Option (PyClass × Bool × Option Nat × Option Nat)
  | fc, is_array, array_size, field_index, [] => some (fc, is_array, array_size, field_index)
  | fc, _, _, _, (fname, fidx) :: rest =>
    match fc with
    | .msgC ffs =>
      match ffs.find? (fun p => p.1 == fname) with
      | some p => walkFields p.2.1 p.2.2.1 p.2.2.2 fidx rest
      | none => none
    | _ => none

/-- `"%s[%d]" % (topic_name, i)`. -/
def indexedName (topic_name : List Char) (i : Nat) : List Char :=
  topic_name ++ '[' :: (Nat.toDigits 10 i ++ [ ']' ])

/-- The decision tail of `get_plot_fields` (lines 134-171) on the walk's
outcome: a numeric/boolean leaf yields the topic itself, a fixed-size array
of size `n` is enumerated as `topic_name[0] .. topic_name[n-1]`, a
variable-size array yields the topic only when an explicit index was given,
a message class enumerates its non-array `int`/`float` fields, and any other
primitive is not plottable. Only the field list is modelled; the status
message is UI text. -/
def plotFieldsTail (topic_name : List Char) (fc : PyClass) (is_array : Bool)
    (array_size : Option Nat) (field_index : Option Nat) : List (List Char) :=
  if fc.isNumeric then
    if is_array then
      match array_size with
      | some n => (List.range n).map (indexedName topic_name)
      | none =>
        match field_index with
        | some _ => [topic_name]
        | none => []
    else [topic_name]
  else
    match fc with
    | .msgC ffs =>
      ((ffs.filter (fun p => p.2.1.isIntOrFloat && p.2.2.1 == false)).map
        (fun p => topic_name ++ '/' :: p.1))
    | _ => []

/-- `get_plot_fields(node, topic_name)` over an abstract topic resolution:
`none` when the topic does not exist or its class is unknown (both
early-return `[]`), otherwise the class of the topic type is walked along the
already-separated path components and the decision tail applies. -/
def get_plot_fields (topic_name : List Char) (resolved : Option PyClass)
    (path : List (List Char × Option Nat)) : List (List Char) :=
  match resolved with
  | none => []
  | some tc =>
    match walkFields tc false none none path with
    | none => []
    | some (fc, is_array, array_size, field_index) =>
      plotFieldsTail topic_name fc is_array array_size field_index

/-! ## Panel bookkeeping (plot_widget.py) and the curve dictionary
(pyqtgraph_data_plot.py)

`PlotWidget._rosdata` and `PyQtGraphDataPlot._curves` are dictionaries; the
model keeps their key lists (insertion-ordered, duplicate-free by
construction). The `DataPlot` adapter between them is not among the sources;
modelled from the spec: the plot-surface adapter forwards
`add_curve`/`remove_curve` to the backend keyed by the same curve id, and
`clear_values` resets a curve's data without creating or removing any curve. -/

/-- `PyQtGraphDataPlot.add_curve`: `self._curves[curve_id] = plot` — inserts
the key, or overwrites the value of an existing key leaving the key set
unchanged. -/
def add_curve (curves : List (List Char)) (curve_id : List Char) : List (List Char) :=
  if curve_id ∈ curves then curves else curves ++ [curve_id]

/-- `PyQtGraphDataPlot.remove_curve`: `if curve_id in self._curves: del
self._curves[curve_id]` (the `str()` coercion is the identity here, the ids
are already strings). -/
def remove_curve (curves : List (List Char)) (curve_id : List Char) : List (List Char) :=
  if curve_id ∈ curves then curves.erase curve_id else curves

/-- The subscribed-topics dictionary and the plot surface's curve dictionary,
by keys. -/
structure Panel where
  rosdata : List (List Char)
  curves : List (List Char)
  deriving Repr

/-- One iteration of `add_topic`'s loop over the expanded field list: an
already-subscribed name is skipped; a name whose fresh `ROSData` reports an
error is inserted and immediately deleted (net no change, modelled by the
`hasError` flag); otherwise the stream is stored and `add_curve` is called
with the same name. -/
def addTopicStep (p : Panel) (t : List Char × Bool) : Panel :=
  if t.1 ∈ p.rosdata then p
  else if t.2 then p
  else { rosdata := p.rosdata ++ [t.1], curves := add_curve p.curves t.1 }

/-- `PlotWidget.add_topic`: `get_plot_fields` expands the request to a list
of field names (empty on failure, making the whole call a no-op), each
processed in order. -/
def Panel.add_topic (p : Panel) (topics : List (List Char × Bool)) : Panel :=
  topics.foldl addTopicStep p

/-- `PlotWidget.remove_topic`: close and delete the stream, then
`remove_curve`. An absent name raises `KeyError` on the very first access,
before any mutation, leaving the state unchanged. -/
def Panel.remove_topic (p : Panel) (t : List Char) : Panel :=
  if t ∈ p.rosdata then
    { rosdata := p.rosdata.erase t, curves := remove_curve p.curves t }
  else p

/-- `PlotWidget.clean_up_subscribers`: close every stream and remove its
curve, then replace `_rosdata` with a fresh empty dictionary. -/
def Panel.clean_up_subscribers (p : Panel) : Panel :=
  { rosdata := [], curves := p.rosdata.foldl remove_curve p.curves }

/-- `PlotWidget.clear_plot`: calls `clear_values` on each subscribed topic
and redraws — neither dictionary's key set changes. -/
def Panel.clear_plot (p : Panel) : Panel :=
  p

/-- The four panel operations of the claim. -/
inductive PanelOp where
  | add_topic (topics : List (List Char × Bool))
  | remove_topic (t : List Char)
  | clean_up_subscribers
  | clear_plot

/-- Apply one panel operation. -/
def Panel.step (p : Panel) : PanelOp → Panel
  | .add_topic topics => p.add_topic topics
  | .remove_topic t => p.remove_topic t
  | .clean_up_subscribers => p.clean_up_subscribers
  | .clear_plot => p.clear_plot

/-- The panel state after `__init__`: both dictionaries empty. -/
def Panel.initial : Panel :=
  { rosdata := [], curves := [] }

/-- Run a sequence of panel operations. -/
def Panel.run (p : Panel) (ops : List PanelOp) : Panel :=
  ops.foldl Panel.step p

/-! ## Auxiliary predicates and concrete instances used in the statements -/

/-- A message whose `header`, if present, is a well-formed timestamped
header: the shape every stamped ROS message has. `_ros_cb`'s two buffer
appends stay in lockstep exactly on such messages. -/
def Msg.headerOk (msg : Msg) : Bool :=
  match headerStatus msg with
  | .absent => true
  | .ok _ _ => true
  | .attrBroken => false
  | .typeBroken => false

/-- Lift `Msg.headerOk` to interleaving steps (a drain has no message). -/
def RDOp.headerOk : RDOp → Bool
  | .cb msg _ => msg.headerOk
  | .drain => true

/-- The panel invariant of the claim: the subscribed-stream names and the
curve ids coincide, and each collection holds each name exactly once. -/
def PanelInv (p : Panel) : Prop :=
  (∀ t, t ∈ p.rosdata ↔ t ∈ p.curves) ∧ p.rosdata.Nodup ∧ p.curves.Nodup

/-- A sample stream mid-session with buffered data and no error. -/
def sampleStream : ROSData :=
  { name := [ 't' ], start_time := 0, error := none,
    buff_x := [1, 2], buff_y := [some 3, none], field_evals := [] }

/-- A sample stream with a recorded error and buffered data. -/
def erroredStream : ROSData :=
  { name := [ 't' ], start_time := 0, error := some .indexErr,
    buff_x := [5], buff_y := [none], field_evals := [] }

/-- A message with a well-formed header (`stamp.sec = 3`,
`stamp.nanosec = 500`) and a numeric field `v = 7`. -/
def headeredMsg : Msg :=
  .comp [([ 'h', 'e', 'a', 'd', 'e', 'r' ],
           .comp [([ 's', 't', 'a', 'm', 'p' ],
                    .comp [([ 's', 'e', 'c' ], .num 3),
                           ([ 'n', 'a', 'n', 'o', 's', 'e', 'c' ], .num 500)])]),
         ([ 'v' ], .num 7)]

/-- A message carrying a numeric field `v` and an integer-valued field named
`header`: `hasattr(msg, 'header')` holds but `msg.header.stamp` raises
`AttributeError`. Such a message type is expressible in the middleware's
interface definition language. -/
def intHeaderMsg : Msg :=
  .comp [([ 'h', 'e', 'a', 'd', 'e', 'r' ], .num 0), ([ 'v' ], .num 7)]

/-- A headerless message whose field `a` is an empty array, so indexing it
raises `IndexError`. -/
def emptyArrMsg : Msg :=
  .comp [([ 'a' ], .arr [])]

/-- `intHeaderMsg` with its numeric field replaced by an empty array, so
field evaluation raises `IndexError` and the header is malformed. -/
def intHeaderArrMsg : Msg :=
  .comp [([ 'h', 'e', 'a', 'd', 'e', 'r' ], .num 0), ([ 'a' ], .arr [])]

/-- A fresh stream whose stored evaluators index element 5 of field `a`. -/
def idxStream : ROSData :=
  ROSData.initState [ 't' ] 0 [FieldEval.arrayEval [ 'a' ] 5]

/-! ## Theorems -/

/-- C2: on a `ROSData` state with no recorded error, `next()` returns exactly
the buffered pair `(buff_x, buff_y)` accumulated since the previous drain, in
arrival order, and leaves both buffers empty, so an immediately following
`next()` returns two empty lists. -/
theorem next_drains_buffers (s : ROSData) (h : s.error = none) :
    (s.next).1 = Except.ok (s.buff_x, s.buff_y) ∧
    (s.next).2.buff_x = [] ∧ (s.next).2.buff_y = [] ∧
    ((s.next).2.next).1 = Except.ok (([] : List Rat), ([] : List (Option Rat))) := by
  simp [ROSData.next, h]

/-- Witness for C2 on a concrete mid-session stream. -/
theorem next_drains_buffers_witness :
    (sampleStream.next).1 = Except.ok (sampleStream.buff_x, sampleStream.buff_y) ∧
    (sampleStream.next).2.buff_x = [] ∧ (sampleStream.next).2.buff_y = [] ∧
    ((sampleStream.next).2.next).1 = Except.ok (([] : List Rat), ([] : List (Option Rat))) :=
  next_drains_buffers sampleStream rfl

/-- C8: `next()` raises exactly when the stream's error field is set, and the
raising call returns the state unchanged (in particular both buffers are
untouched: no partial drain); with no error set it returns the buffered
pair. -/
theorem next_raises_iff_error (s : ROSData) :
    (∀ e, s.error = some e → s.next = (Except.error e, s)) ∧
    (s.error = none → (s.next).1 = Except.ok (s.buff_x, s.buff_y)) := by
  constructor
  · intro e he
    simp [ROSData.next, he]
  · intro he
    simp [ROSData.next, he]

/-- Witness for C8 on a concrete errored stream. -/
theorem next_raises_iff_error_witness :
    erroredStream.next = (Except.error RosPlotErr.indexErr, erroredStream) :=
  (next_raises_iff_error erroredStream).1 RosPlotErr.indexErr rfl

/-- C7: the field path is resolved exactly once, at construction: the
constructor stores `generate_field_evals fields`, and neither `_ros_cb` (and
the `_get_data` it runs on any message) nor `next` modifies `field_evals`,
`name`, or `start_time`. -/
theorem field_path_resolved_once :
    (∀ fields name t0,
      (ROSData.init (some fields) name t0).map ROSData.field_evals =
        generate_field_evals fields) ∧
    (∀ (s : ROSData) (msg : Msg) (now : Rat),
      (s.ros_cb msg now).field_evals = s.field_evals ∧
      (s.ros_cb msg now).name = s.name ∧
      (s.ros_cb msg now).start_time = s.start_time) ∧
    (∀ s : ROSData,
      (s.next).2.field_evals = s.field_evals ∧
      (s.next).2.name = s.name ∧
      (s.next).2.start_time = s.start_time) := by
  refine ⟨?_, ?_, ?_⟩
  · intro fields name t0
    cases h : generate_field_evals fields <;>
      simp [ROSData.init, h, Except.map, ROSData.initState]
  · intro s msg now
    cases h1 : getDataVal s.field_evals msg <;>
      cases h2 : headerStatus msg <;>
        simp [ROSData.ros_cb, h1, h2]
  · intro s
    cases h : s.error <;> simp [ROSData.next, h]

/-- C10: `remove_curve` is idempotent on the curve dictionary: removing an
absent id is a no-op, and removing the same id twice equals removing it
once. -/
theorem remove_curve_idempotent (curves : List (List Char)) (curve_id : List Char)
    (h : curves.Nodup) :
    (curve_id ∉ curves → remove_curve curves curve_id = curves) ∧
    remove_curve (remove_curve curves curve_id) curve_id =
      remove_curve curves curve_id := by
  constructor
  · intro hn
    simp [remove_curve, hn]
  · by_cases hm : curve_id ∈ curves
    · have h1 : remove_curve curves curve_id = curves.erase curve_id := by
        simp [remove_curve, hm]
      have h2 : curve_id ∉ curves.erase curve_id := h.not_mem_erase
      rw [h1]
      simp [remove_curve, h2]
    · simp [remove_curve, hm]

/-- Witness for C10 on concrete curve dictionaries. -/
theorem remove_curve_idempotent_witness :
    remove_curve (remove_curve [[ 'a' ], [ 'b' ]] [ 'a' ]) [ 'a' ] =
      remove_curve [[ 'a' ], [ 'b' ]] [ 'a' ] ∧
    remove_curve [[ 'c' ]] [ 'a' ] = [[ 'c' ]] :=
  ⟨(remove_curve_idempotent [[ 'a' ], [ 'b' ]] [ 'a' ] (by decide)).2,
   (remove_curve_idempotent [[ 'c' ]] [ 'a' ] (by decide)).1 (by decide)⟩

/-- C6: every timestamp appended by `_ros_cb` is relative to session start:
when the message carries a (well-formed) header it is the header time
`sec + nanosec * 10^-9` minus `start_time`, and without a header attribute it
is the wall-clock time minus `start_time` (when field evaluation raises
`AttributeError` no timestamp is appended at all, so the hypothesis excludes
that case). -/
theorem timestamps_relative_to_start (s : ROSData) (msg : Msg) (now : Rat)
    (hget : getDataVal s.field_evals msg ≠ GetData.attrRaise) :
    (∀ sec ns, headerStatus msg = HeaderStatus.ok sec ns →
      (s.ros_cb msg now).buff_x
        = s.buff_x ++ [sec + ns * (1 / 1000000000) - s.start_time]) ∧
    (headerStatus msg = HeaderStatus.absent →
      (s.ros_cb msg now).buff_x = s.buff_x ++ [now - s.start_time]) := by
  cases h1 : getDataVal s.field_evals msg with
  | attrRaise => exact absurd h1 hget
  | ok v =>
    constructor
    · intro sec ns h2
      simp [ROSData.ros_cb, h1, h2]
    · intro h2
      simp [ROSData.ros_cb, h1, h2]
  | errSet e =>
    constructor
    · intro sec ns h2
      simp [ROSData.ros_cb, h1, h2]
    · intro h2
      simp [ROSData.ros_cb, h1, h2]

/-- Witness for C6: a stamped message gets its header time, a headerless one
the wall-clock time. -/
theorem timestamps_relative_to_start_witness :
    (sampleStream.ros_cb headeredMsg 10).buff_x
      = sampleStream.buff_x ++ [3 + 500 * (1 / 1000000000) - sampleStream.start_time] ∧
    (sampleStream.ros_cb (Msg.num 5) 10).buff_x
      = sampleStream.buff_x ++ [10 - sampleStream.start_time] :=
  ⟨(timestamps_relative_to_start sampleStream headeredMsg 10 (by decide)).1 3 500 (by decide),
   (timestamps_relative_to_start sampleStream (Msg.num 5) 10 (by decide)).2 (by decide)⟩

/-- C3 counterexample: from the initial state, one callback delivering a
message whose `header` field is an integer (so `hasattr(msg, 'header')`
holds but `msg.header.stamp` raises `AttributeError`) appends to `buff_y`
and not to `buff_x`, so the buffers are not parallel in that reachable
state. -/
theorem buffers_parallel_cex :
    ((ROSData.initState [ 't' ] 0 []).runOps [RDOp.cb intHeaderMsg 10]).buff_x.length ≠
    ((ROSData.initState [ 't' ] 0 []).runOps [RDOp.cb intHeaderMsg 10]).buff_y.length := by
  decide

/-- One callback or drain step preserves equality of the buffer lengths,
provided the callback's message has no header attribute or a well-formed
one. -/
lemma rdop_preserves_parallel (s : ROSData) (op : RDOp) (hop : op.headerOk = true)
    (h : s.buff_x.length = s.buff_y.length) :
    (RDOp.apply s op).buff_x.length = (RDOp.apply s op).buff_y.length := by
  cases op with
  | drain =>
    cases he : s.error <;> simp [RDOp.apply, ROSData.next, he, h]
  | cb msg now =>
    have hm : msg.headerOk = true := hop
    cases h1 : getDataVal s.field_evals msg <;>
      cases h2 : headerStatus msg <;>
        simp only [Msg.headerOk, h2] at hm <;>
        first
          | exact absurd hm (by decide)
          | simp [RDOp.apply, ROSData.ros_cb, h1, h2, h]

/-- C3 amended: the buffers of a sample stream stay parallel under every
interleaving of callbacks and drains, provided each delivered message's
`header` attribute, when present, is a well-formed timestamped header; a
message with a malformed `header` attribute makes the callback append the
value without a timestamp (see the counterexample). -/
theorem buffers_parallel_amended (name : List Char) (t0 : Rat)
    (evals : List FieldEval) (ops : List RDOp)
    (hops : ∀ op ∈ ops, op.headerOk = true) :
    ((ROSData.initState name t0 evals).runOps ops).buff_x.length =
    ((ROSData.initState name t0 evals).runOps ops).buff_y.length := by
  have key : ∀ (l : List RDOp) (s : ROSData), (∀ op ∈ l, op.headerOk = true) →
      s.buff_x.length = s.buff_y.length →
      (s.runOps l).buff_x.length = (s.runOps l).buff_y.length := by
    intro l
    induction l with
    | nil => intro s _ h; exact h
    | cons op rest ih =>
      intro s hl h
      have h1 := rdop_preserves_parallel s op (hl op (by simp)) h
      exact ih (RDOp.apply s op) (fun o ho => hl o (by simp [ho])) h1
  exact key ops _ hops rfl

/-- Witness for the amended C3 on a concrete interleaving (a stamped
message, a headerless message, then a drain). -/
theorem buffers_parallel_amended_witness :
    ((ROSData.initState [ 't' ] 0 []).runOps
        [RDOp.cb headeredMsg 1, RDOp.cb (Msg.num 5) 2, RDOp.drain]).buff_x.length =
    ((ROSData.initState [ 't' ] 0 []).runOps
        [RDOp.cb headeredMsg 1, RDOp.cb (Msg.num 5) 2, RDOp.drain]).buff_y.length :=
  buffers_parallel_amended [ 't' ] 0 []
    [RDOp.cb headeredMsg 1, RDOp.cb (Msg.num 5) 2, RDOp.drain] (by decide)

/-- C9 counterexample: a message whose field evaluation raises `IndexError`
and whose `header` attribute is an integer: `_get_data` records the index
error and returns `None`, the `None` is appended to `buff_y`, but no
timestamp joins it in `buff_x`, and the error a later `next()` would raise is
the "Invalid topic spec" one, not the recorded index error. -/
theorem error_sample_buffered_cex :
    getDataVal idxStream.field_evals intHeaderArrMsg
      = GetData.errSet RosPlotErr.indexErr ∧
    (idxStream.ros_cb intHeaderArrMsg 10).buff_y = [none] ∧
    (idxStream.ros_cb intHeaderArrMsg 10).buff_x = [] ∧
    (idxStream.ros_cb intHeaderArrMsg 10).error = some RosPlotErr.invalidSpec := by
  refine ⟨by decide, by decide, by decide, by decide⟩

/-- C9 amended: when field evaluation fails with an `IndexError` or
`TypeError` — and the message's `header` attribute, when present, is a
well-formed timestamped header — `_get_data` records the error and returns
`None`, `_ros_cb` appends that `None` to the value buffer together with a
timestamp in the time buffer, and the next call to `next()` raises the
recorded error. -/
theorem error_sample_buffered_amended (s : ROSData) (msg : Msg) (now : Rat)
    (e : RosPlotErr) (hget : getDataVal s.field_evals msg = GetData.errSet e)
    (hhdr : msg.headerOk = true) :
    (s.ros_cb msg now).buff_y = s.buff_y ++ [none] ∧
    (s.ros_cb msg now).buff_x.length = s.buff_x.length + 1 ∧
    (s.ros_cb msg now).error = some e ∧
    ((s.ros_cb msg now).next).1 = Except.error e := by
  cases h2 : headerStatus msg with
  | absent =>
    refine ⟨?_, ?_, ?_, ?_⟩ <;> simp [ROSData.ros_cb, hget, h2, ROSData.next]
  | ok sec ns =>
    refine ⟨?_, ?_, ?_, ?_⟩ <;> simp [ROSData.ros_cb, hget, h2, ROSData.next]
  | attrBroken => simp [Msg.headerOk, h2] at hhdr
  | typeBroken => simp [Msg.headerOk, h2] at hhdr

/-- Witness for the amended C9: indexing an empty array records an index
error whose `None` sample is buffered with its timestamp. -/
theorem error_sample_buffered_amended_witness :
    (idxStream.ros_cb emptyArrMsg 10).buff_y = idxStream.buff_y ++ [none] ∧
    (idxStream.ros_cb emptyArrMsg 10).buff_x.length = idxStream.buff_x.length + 1 ∧
    (idxStream.ros_cb emptyArrMsg 10).error = some RosPlotErr.indexErr ∧
    ((idxStream.ros_cb emptyArrMsg 10).next).1 = Except.error RosPlotErr.indexErr :=
  error_sample_buffered_amended idxStream emptyArrMsg 10 RosPlotErr.indexErr
    (by decide) (by decide)

/-- Membership after `remove_curve` on a duplicate-free curve dictionary. -/
lemma mem_remove_curve (c : List (List Char)) (hc : c.Nodup) (a x : List Char) :
    x ∈ remove_curve c a ↔ x ∈ c ∧ x ≠ a := by
  by_cases hm : a ∈ c
  · simp only [remove_curve, if_pos hm, hc.mem_erase_iff]
    tauto
  · simp only [remove_curve, if_neg hm]
    exact ⟨fun hx => ⟨hx, fun he => hm (he ▸ hx)⟩, fun hx => hx.1⟩

/-- `remove_curve` preserves duplicate-freedom of the curve dictionary. -/
lemma nodup_remove_curve (c : List (List Char)) (hc : c.Nodup) (a : List Char) :
    (remove_curve c a).Nodup := by
  by_cases hm : a ∈ c
  · simpa [remove_curve, hm] using hc.erase a
  · simpa [remove_curve, hm] using hc

/-- Removing a batch of curves (the loop of `clean_up_subscribers`) keeps the
dictionary duplicate-free and leaves exactly the ids not in the batch. -/
lemma fold_remove_spec : ∀ (l c : List (List Char)), c.Nodup →
    (l.foldl remove_curve c).Nodup ∧
    (∀ x, x ∈ l.foldl remove_curve c ↔ x ∈ c ∧ x ∉ l) := by
  intro l
  induction l with
  | nil =>
    intro c hc
    exact ⟨hc, by simp⟩
  | cons a rest ih =>
    intro c hc
    obtain ⟨hn, hmem⟩ := ih (remove_curve c a) (nodup_remove_curve c hc a)
    refine ⟨hn, fun x => ?_⟩
    rw [List.foldl_cons, hmem x, mem_remove_curve c hc a x]
    simp only [List.mem_cons]
    tauto

/-- One iteration of `add_topic`'s loop preserves the panel invariant. -/
lemma addTopicStep_inv (p : Panel) (t : List Char × Bool) (h : PanelInv p) :
    PanelInv (addTopicStep p t) := by
  obtain ⟨hiff, hr, hcv⟩ := h
  by_cases h1 : t.1 ∈ p.rosdata
  · simpa [addTopicStep, h1] using ⟨hiff, hr, hcv⟩
  · by_cases h2 : t.2 = true
    · simpa [addTopicStep, h1, h2] using ⟨hiff, hr, hcv⟩
    · have hc1 : t.1 ∉ p.curves := fun hx => h1 ((hiff t.1).2 hx)
      simp only [addTopicStep, if_neg h1, h2, if_neg, Bool.false_eq_true,
        ite_false, add_curve, if_neg hc1]
      refine ⟨fun x => ?_, ?_, ?_⟩
      · simp [List.mem_append, hiff x]
      · simp [List.nodup_append, hr, h1]
      · simp [List.nodup_append, hcv, hc1]

/-- `add_topic` preserves the panel invariant. -/
lemma add_topic_inv (p : Panel) (topics : List (List Char × Bool))
    (h : PanelInv p) : PanelInv (p.add_topic topics) := by
  induction topics generalizing p with
  | nil => exact h
  | cons t rest ih => exact ih (addTopicStep p t) (addTopicStep_inv p t h)

/-- `remove_topic` preserves the panel invariant. -/
lemma remove_topic_inv (p : Panel) (t : List Char) (h : PanelInv p) :
    PanelInv (p.remove_topic t) := by
  obtain ⟨hiff, hr, hcv⟩ := h
  by_cases hm : t ∈ p.rosdata
  · simp only [Panel.remove_topic, if_pos hm]
    refine ⟨fun x => ?_, hr.erase t, nodup_remove_curve p.curves hcv t⟩
    rw [show ({ rosdata := p.rosdata.erase t,
                curves := remove_curve p.curves t } : Panel).rosdata
          = p.rosdata.erase t from rfl]
    rw [hr.mem_erase_iff, mem_remove_curve p.curves hcv t x]
    rw [hiff x]
    tauto
  · simpa [Panel.remove_topic, hm] using ⟨hiff, hr, hcv⟩

/-- `clean_up_subscribers` preserves the panel invariant (both collections
end up empty when it held before). -/
lemma clean_up_inv (p : Panel) (h : PanelInv p) :
    PanelInv p.clean_up_subscribers := by
  obtain ⟨hiff, hr, hcv⟩ := h
  obtain ⟨hn, hmem⟩ := fold_remove_spec p.rosdata p.curves hcv
  refine ⟨fun x => ?_, List.nodup_nil, hn⟩
  show x ∈ ([] : List (List Char)) ↔ x ∈ p.rosdata.foldl remove_curve p.curves
  rw [hmem x]
  simp only [List.not_mem_nil, false_iff]
  exact fun hx => hx.2 ((hiff x).2 hx.1)

/-- Each panel operation preserves the invariant. -/
lemma panel_step_inv (p : Panel) (op : PanelOp) (h : PanelInv p) :
    PanelInv (p.step op) := by
  cases op with
  | add_topic topics => exact add_topic_inv p topics h
  | remove_topic t => exact remove_topic_inv p t h
  | clean_up_subscribers => exact clean_up_inv p h
  | clear_plot => exact h

/-- C1: after any sequence of panel operations from the initial empty state,
the topic names of the sample-stream dictionary and the curve ids of the
plot surface coincide, each held exactly once — every active stream has
exactly one corresponding curve, kept in lockstep by each operation. -/
theorem streams_curves_lockstep (ops : List PanelOp) :
    (∀ t, t ∈ (Panel.initial.run ops).rosdata ↔ t ∈ (Panel.initial.run ops).curves) ∧
    (Panel.initial.run ops).rosdata.Nodup ∧
    (Panel.initial.run ops).curves.Nodup := by
  have key : ∀ (l : List PanelOp) (p : Panel), PanelInv p → PanelInv (p.run l) := by
    intro l
    induction l with
    | nil => intro p h; exact h
    | cons op rest ih => intro p h; exact ih (p.step op) (panel_step_inv p op h)
  exact key ops Panel.initial
    ⟨fun t => by simp [Panel.initial], by simp [Panel.initial], by simp [Panel.initial]⟩

/-- C5: when the field path walk lands on a numeric (or boolean) array slot,
a fixed or bounded size `n` is enumerated as the `n` indexed paths
`topic_name[0] .. topic_name[n-1]` in index order, and a variable-size array
reached without an explicit index yields the empty list. -/
theorem plot_fields_array_enumeration (topic_name : List Char) (tc fc : PyClass)
    (path : List (List Char × Option Nat)) (array_size field_index : Option Nat)
    (hw : walkFields tc false none none path = some (fc, true, array_size, field_index))
    (hn : fc.isNumeric = true) :
    (∀ n, array_size = some n →
      get_plot_fields topic_name (some tc) path
        = (List.range n).map (indexedName topic_name)) ∧
    (array_size = none → field_index = none →
      get_plot_fields topic_name (some tc) path = []) := by
  constructor
  · intro n hs
    simp [get_plot_fields, hw, plotFieldsTail, hn, hs]
  · intro hs hf
    simp [get_plot_fields, hw, plotFieldsTail, hn, hs, hf]

/-- Witness for C5: a size-3 integer array field enumerates three indexed
paths, an unbounded one enumerates nothing. -/
theorem plot_fields_array_enumeration_witness :
    get_plot_fields [ 't' ]
        (some (PyClass.msgC [([ 'f' ], PyClass.intC, true, some 3)]))
        [([ 'f' ], none)]
      = (List.range 3).map (indexedName [ 't' ]) ∧
    get_plot_fields [ 't' ]
        (some (PyClass.msgC [([ 'f' ], PyClass.intC, true, none)]))
        [([ 'f' ], none)]
      = [] :=
  ⟨(plot_fields_array_enumeration [ 't' ]
      (PyClass.msgC [([ 'f' ], PyClass.intC, true, some 3)]) PyClass.intC
      [([ 'f' ], none)] (some 3) none rfl rfl).1 3 rfl,
   (plot_fields_array_enumeration [ 't' ]
      (PyClass.msgC [([ 'f' ], PyClass.intC, true, none)]) PyClass.intC
      [([ 'f' ], none)] none none rfl rfl).2 rfl rfl⟩

/-- Splitting a character list at the first occurrence of `c`: `takeWhile`
yields everything before it and `dropWhile` the rest starting at it. -/
lemma takeWhile_dropWhile_split (c : Char) :
    ∀ (name t : List Char), c ∉ name →
      ((name ++ c :: t).takeWhile (fun a => a != c) = name ∧
       (name ++ c :: t).dropWhile (fun a => a != c) = c :: t) := by
  intro name
  induction name with
  | nil =>
    intro t _
    constructor <;> simp [List.takeWhile_cons, List.dropWhile_cons]
  | cons a as ih =>
    intro t hc
    have ha : a ≠ c := fun he => hc (by simp [he])
    have has : c ∉ as := fun hm => hc (by simp [hm])
    obtain ⟨ih1, ih2⟩ := ih t has
    constructor
    · simp [List.takeWhile_cons, ha, ih1]
    · simp [List.dropWhile_cons, ha, ih2]

/-- A bracketed component `name[s]` is parsed by splitting at the first `[`,
slicing up to the first `]`, and feeding the slice to `int()`. -/
lemma parseComps_bracket (name s : List Char) (cs : List (List Char))
    (hn : '[' ∉ name) (hs : ']' ∉ s) :
    parseComps ((name ++ '[' :: (s ++ [ ']' ])) :: cs)
      = match pyInt s with
        | some k => (parseComps cs).map (fun evs => FieldEval.arrayEval name k :: evs)
        | none => Except.error RosPlotErr.parseErr := by
  have h1 : '[' ∈ name ++ '[' :: (s ++ [ ']' ]) := by simp
  obtain ⟨ht, hd⟩ := takeWhile_dropWhile_split '[' name (s ++ [ ']' ]) hn
  have h2 : sliceToBracket
      (((name ++ '[' :: (s ++ [ ']' ])).dropWhile (fun a => a != '[')).tail) = s := by
    rw [hd]
    show sliceToBracket (s ++ [ ']' ]) = s
    have hm : ']' ∈ s ++ [ ']' ] := by simp
    obtain ⟨ht2, _⟩ := takeWhile_dropWhile_split ']' s [] hs
    simpa [sliceToBracket, hm] using ht2
  simp only [parseComps, if_pos h1, ht, h2]

/-- C4: `generate_field_evals` splits the field string on `/` and skips
empty components; a component `name[s]` with `int(s) = k` contributes the
accessor selecting element `k` of attribute `name`, an unparseable bracket
index raises `RosPlotException`, and a plain component contributes the
accessor selecting that attribute; the produced evaluators are those very
accessors and compose left to right over a message, reaching the addressed
leaf. -/
theorem generate_field_evals_spec :
    (∀ fields, generate_field_evals fields
        = parseComps ((splitOnChar '/' fields).filter (fun f => f ≠ []))) ∧
    (∀ name s k cs, '[' ∉ name → ']' ∉ s → pyInt s = some k →
      parseComps ((name ++ '[' :: (s ++ [ ']' ])) :: cs)
        = (parseComps cs).map (fun evs => FieldEval.arrayEval name k :: evs)) ∧
    (∀ name cs, '[' ∉ name →
      parseComps (name :: cs)
        = (parseComps cs).map (fun evs => FieldEval.fieldEval name :: evs)) ∧
    (∀ name s cs, '[' ∉ name → ']' ∉ s → pyInt s = none →
      parseComps ((name ++ '[' :: (s ++ [ ']' ])) :: cs)
        = Except.error RosPlotErr.parseErr) ∧
    (∀ name m, applyEval (FieldEval.fieldEval name) m = pyGetattr m name) ∧
    (∀ (name : List Char) (k : Nat) (m : Msg) (xs : List Msg) (v : Msg),
      pyGetattr m name = Except.ok (Msg.arr xs) → xs.get? k = some v →
      applyEval (FieldEval.arrayEval name (k : Int)) m = Except.ok v) ∧
    (∀ e es m v, applyEval e m = Except.ok v →
      applyEvals (e :: es) m = applyEvals es v) := by
  refine ⟨fun fields => rfl, ?_, ?_, ?_, fun name m => rfl, ?_, ?_⟩
  · intro name s k cs hn hs hk
    rw [parseComps_bracket name s cs hn hs, hk]
  · intro name cs hn
    simp only [parseComps, if_neg hn]
  · intro name s cs hn hs hk
    rw [parseComps_bracket name s cs hn hs, hk]
  · intro name k m xs v hattr hv
    simp only [applyEval, hattr]
    have hk0 : ¬((k : Int) < 0) := by omega
    simp only [List.get?_eq_getElem?] at hv
    simp [pyGetitem, hk0, Int.toNat_natCast, hv]
  · intro e es m v h
    simp [applyEvals, h]

/-- Witness for C4 on concrete components and a concrete message. -/
theorem generate_field_evals_spec_witness :
    parseComps (([ 'a' ] ++ '[' :: ([ '2' ] ++ [ ']' ])) :: [])
      = (parseComps []).map (fun evs => FieldEval.arrayEval [ 'a' ] 2 :: evs) ∧
    parseComps ([ 'd' ] :: [])
      = (parseComps []).map (fun evs => FieldEval.fieldEval [ 'd' ] :: evs) ∧
    parseComps (([ 'a' ] ++ '[' :: ([ 'x' ] ++ [ ']' ])) :: [])
      = Except.error RosPlotErr.parseErr ∧
    applyEval (FieldEval.arrayEval [ 'a' ] ((1 : Nat) : Int))
        (Msg.comp [([ 'a' ], Msg.arr [Msg.num 5, Msg.num 7])])
      = Except.ok (Msg.num 7) :=
  ⟨generate_field_evals_spec.2.1 [ 'a' ] [ '2' ] 2 [] (by decide) (by decide) (by decide),
   generate_field_evals_spec.2.2.1 [ 'd' ] [] (by decide),
   generate_field_evals_spec.2.2.2.1 [ 'a' ] [ 'x' ] [] (by decide) (by decide) (by decide),
   generate_field_evals_spec.2.2.2.2.2.1 [ 'a' ] 1
     (Msg.comp [([ 'a' ], Msg.arr [Msg.num 5, Msg.num 7])])
     [Msg.num 5, Msg.num 7] (Msg.num 7) rfl rfl⟩

end RqtPlot
